import Mathlib

/-!
Verification of the rolling-window plotter (`Plotter::act` / `Plotter::draw`,
src/src/graphics/ui/elements/Plotter.cpp) and of the preview-export error
handling (`LevelScreen::saveWorldPreview`, src/src/frontend/screens/LevelScreen.cpp).

The C++ is shallowly embedded: machine `int` becomes ℤ (no overflow is reached
at the inputs considered), `float` scalars become ℚ, the member fields of
`gui::Plotter` (declared in Plotter.hpp, which is not part of the excerpt; the
spec describes them: integer sample buffer of capacity `dmwidth`, integer write
cursor `index`, scale factor `multiplier`, geometry `dmheight`,
`labelsInterval`, `size`) become a structure, and the mutating method
`Plotter::act` becomes a function from the structure to itself.
`Plotter::draw` only issues calls on its `Batch2D` / `Font` collaborators and
assigns no member, so it is embedded as a pure function producing the list of
those calls in order.
-/

/-- `static_cast<int>` applied to a non-integral scalar: C++ truncation toward
zero. -/
def truncToInt (q : ℚ) : ℤ := if 0 ≤ q then ⌊q⌋ else ⌈q⌉

/-- C++ `int` division: truncation toward zero (used for `current_point/16`
in `Plotter::draw`). -/
def cppDiv (a b : ℤ) : ℤ := Int.tdiv a b

/-- The number of iterations of `for (int y = 0; y < bound; y += step)`:
the values taken by `y` are `step * 0, step * 1, ...` while `< bound`.
(For `step = 0` and `0 < bound` the C++ loop does not terminate; every
theorem below that involves such a loop assumes `0 < step`.) -/
def stepCount (bound : ℤ) (step : ℕ) : ℕ := (bound.toNat + step - 1) / step

/-- The `gui::Plotter` state: the members read and written by `Plotter::act`
and `Plotter::draw`.  Plotter.hpp is not in the excerpt; the field types
follow the data model of the spec (integer magnitudes, integer cursor, scale
factor, pixel geometry); `sizeY` is the member `size.y` of the base `UINode`.
The cursor only ever moves up from its initial value, so ℕ models it. -/
structure Plotter where
  points : List ℤ
  index : ℕ
  dmwidth : ℕ
  dmheight : ℤ
  multiplier : ℚ
  labelsInterval : ℕ
  sizeY : ℚ
  deriving Repr

/-- `Plotter::act(float delta)`:
`index = index + 1 % dmwidth;` (C++ precedence: `index + (1 % dmwidth)`),
`int value = static_cast<int>(delta * multiplier);`,
`points[index % dmwidth] = std::min(value, dmheight);`. -/
def Plotter.act (p : Plotter) (delta : ℚ) : Plotter :=
  let index := p.index + 1 % p.dmwidth
  let value := truncToInt (delta * p.multiplier)
  { p with
    index := index
    points := p.points.set (index % p.dmwidth) (min value p.dmheight) }

/-- The magnitude `Plotter::act` stores for the input `delta`:
`std::min(static_cast<int>(delta * multiplier), dmheight)`. -/
def Plotter.mag (p : Plotter) (delta : ℚ) : ℤ :=
  min (truncToInt (delta * p.multiplier)) p.dmheight

/-- One call issued on the drawing collaborators during `Plotter::draw`:
the `Batch2D` methods `texture`, `lineWidth`, `line` (with r g b a), `setColor`,
`lineRect`, and `Font::draw` of the string `util::to_wstring(val, prec)`. -/
inductive DrawCall where
  | texture (tex : Option Unit)
  | lineWidth (w : ℚ)
  | line (x1 y1 x2 y2 r g b a : ℚ)
  | setColor (r g b a : ℚ)
  | lineRect (x y w h : ℚ)
  | text (val : ℚ) (prec : ℕ) (x y : ℚ)
  deriving DecidableEq, Repr

/-- The bar loop of `Plotter::draw`:
`for (int i = index+1; i < index+dmwidth; i++)` draws, for each `i`, a
vertical line at `x = pos.x + i - index` from `pos.y + size.y - points[i % dmwidth]`
down to `pos.y + size.y`, with color (1,1,1,0.2). -/
def Plotter.barCalls (p : Plotter) (pos : ℚ × ℚ) : List DrawCall :=
  (List.range (p.dmwidth - 1)).map (fun t =>
    let i : ℕ := p.index + 1 + t
    let j : ℕ := i % p.dmwidth
    DrawCall.line (pos.1 + (i : ℚ) - (p.index : ℚ))
      (pos.2 + p.sizeY - (p.points.getD j 0 : ℚ))
      (pos.1 + (i : ℚ) - (p.index : ℚ))
      (pos.2 + p.sizeY) 1 1 1 (1/5))

/-- The tick-mark loop of `Plotter::draw`:
`for (int y = 0; y < dmheight; y += 16)` draws a horizontal segment from
`pos.x+dmwidth-4` to `pos.x+dmwidth+4` at height `pos.y+dmheight-y`. -/
def Plotter.gridCalls (p : Plotter) (pos : ℚ × ℚ) : List DrawCall :=
  (List.range (stepCount p.dmheight 16)).map (fun k =>
    let y : ℕ := 16 * k
    DrawCall.line (pos.1 + (p.dmwidth : ℚ) - 4) (pos.2 + (p.dmheight : ℚ) - (y : ℚ))
      (pos.1 + (p.dmwidth : ℚ) + 4) (pos.2 + (p.dmheight : ℚ) - (y : ℚ))
      1 1 1 (1/5))

/-- `int current_point = static_cast<int>(points[index % dmwidth]);` -/
def Plotter.currentPoint (p : Plotter) : ℤ :=
  p.points.getD (p.index % p.dmwidth) 0

/-- The label loop of `Plotter::draw`:
`for (int y = 0; y < dmheight; y += labelsInterval)`; the row with
`current_point/16 == y/labelsInterval` (C++ truncating division) is drawn
with alpha 0.5 and shows `current_point / multiplier`, every other row is
drawn with alpha 0.2 and shows `y / multiplier`; the string goes at
`(pos.x+dmwidth+2, pos.y+dmheight-y-labelsInterval)`. -/
def Plotter.labelCalls (p : Plotter) (pos : ℚ × ℚ) : List DrawCall :=
  (List.range (stepCount p.dmheight p.labelsInterval)).flatMap (fun k =>
    let y : ℕ := p.labelsInterval * k
    if cppDiv p.currentPoint 16 = ((y / p.labelsInterval : ℕ) : ℤ) then
      [DrawCall.setColor 1 1 1 (1/2),
       DrawCall.text ((p.currentPoint : ℚ) / p.multiplier) 3
         (pos.1 + (p.dmwidth : ℚ) + 2)
         (pos.2 + (p.dmheight : ℚ) - (y : ℚ) - (p.labelsInterval : ℚ))]
    else
      [DrawCall.setColor 1 1 1 (1/5),
       DrawCall.text ((y : ℚ) / p.multiplier) 3
         (pos.1 + (p.dmwidth : ℚ) + 2)
         (pos.2 + (p.dmheight : ℚ) - (y : ℚ) - (p.labelsInterval : ℚ))])

/-- `Plotter::draw(const GfxContext*, Assets*)`, as the ordered list of calls
issued on the `Batch2D` and `Font` collaborators.  `pos` is the value of
`calcPos()` (layout, outside the excerpt), passed as a parameter. -/
def Plotter.draw (p : Plotter) (pos : ℚ × ℚ) : List DrawCall :=
  [DrawCall.texture none, DrawCall.lineWidth 1]
    ++ p.barCalls pos
    ++ [DrawCall.setColor 1 1 1 (1/5),
        DrawCall.lineRect pos.1 pos.2 (p.dmwidth : ℚ) (p.dmheight : ℚ)]
    ++ p.gridCalls pos
    ++ p.labelCalls pos

/-- How many of the issued calls select the highlighted label style
`setColor({1,1,1,0.5f})`. -/
def highlightCount (cs : List DrawCall) : ℕ :=
  cs.countP (fun c => decide (c = DrawCall.setColor 1 1 1 (1/2)))

/-- `Plotter::draw` embedded with its state passed through explicitly: the
method assigns no member, so the resulting state is the receiver itself,
next to the list of issued calls. -/
def Plotter.render (p : Plotter) (pos : ℚ × ℚ) : Plotter × List DrawCall :=
  (p, p.draw pos)

/-- `n` back-to-back calls of `Plotter::draw` with no `Plotter::act` between
them: the state threaded through each call, and the list of outputs. -/
def Plotter.renderIter (p : Plotter) (pos : ℚ × ℚ) : ℕ → Plotter × List (List DrawCall)
  | 0 => (p, [])
  | n + 1 =>
    let r := p.renderIter pos n
    let r2 := r.1.render pos
    (r2.1, r.2 ++ [r2.2])

/-- A log line of `debug::Logger` ("level-screen"): level and message. -/
inductive LogLevel where
  | info
  | error
  deriving DecidableEq, Repr

/-- One logged line. -/
structure LogEntry where
  level : LogLevel
  msg : String
  deriving DecidableEq, Repr

/-- Modelled from the spec: the collaborators invoked inside the `try` block
of `LevelScreen::saveWorldPreview` (`WorldRenderer::draw`,
`PostProcessing::toImage`, `ImageData::flipY`, `imageio::write`) live outside
the excerpt; each may throw a `std::exception`, carried here as an `Except`
value holding the `what()` string. -/
structure PreviewEnv where
  renderWorld : Except String Unit
  toImage : Except String Unit
  flipY : Except String Unit
  writeImage : Except String Unit

/-- The fallible part of the `try` block of `LevelScreen::saveWorldPreview`,
in source order; the first step to throw aborts the rest. -/
def previewTryBlock (env : PreviewEnv) : Except String Unit := do
  env.renderWorld
  env.toImage
  env.flipY
  env.writeImage

/-- `LevelScreen::saveWorldPreview()`: logs "saving world preview" at info
level, runs the export steps, and catches any `std::exception`, logging its
`what()` at error level.  The return type is a plain log: no exception
escapes to the caller. -/
def LevelScreen.saveWorldPreview (env : PreviewEnv) : List LogEntry :=
  match previewTryBlock env with
  | Except.ok _ => [⟨LogLevel.info, "saving world preview"⟩]
  | Except.error e =>
      [⟨LogLevel.info, "saving world preview"⟩, ⟨LogLevel.error, e⟩]

/-! ### Helper lemmas -/

lemma getD_set_self (l : List ℤ) (i : ℕ) (a : ℤ) (h : i < l.length) :
    (l.set i a).getD i 0 = a := by
  simp [List.getD_eq_getElem?_getD, List.getElem?_set_self h]

lemma getD_set_ne (l : List ℤ) (i j : ℕ) (a : ℤ) (h : i ≠ j) :
    (l.set i a).getD j 0 = l.getD j 0 := by
  simp [List.getD_eq_getElem?_getD, List.getElem?_set_ne h]

lemma mod_ne_mod_add (a d W : ℕ) (h1 : 0 < d) (h2 : d < W) :
    a % W ≠ (a + d) % W := by
  intro h
  have hmod : Nat.ModEq W a (a + d) := h
  have hdvd : W ∣ (a + d) - a := (Nat.modEq_iff_dvd' (Nat.le_add_right a d)).mp hmod
  simp only [Nat.add_sub_cancel_left] at hdvd
  exact absurd (Nat.le_of_dvd h1 hdvd) (not_le.mpr h2)

lemma truncToInt_intCast (n : ℤ) : truncToInt (n : ℚ) = n := by
  unfold truncToInt
  split <;> simp

lemma le_truncToInt_of_lt (H : ℤ) (q : ℚ) (h : (H : ℚ) < q) : H ≤ truncToInt q := by
  unfold truncToInt
  split
  · exact Int.le_floor.mpr h.le
  · have h2 : (H : ℚ) < (⌈q⌉ : ℚ) := lt_of_lt_of_le h (Int.le_ceil q)
    exact_mod_cast h2.le

lemma Plotter.act_index (p : Plotter) (x : ℚ) :
    (p.act x).index = p.index + 1 % p.dmwidth := rfl

lemma Plotter.act_dmwidth (p : Plotter) (x : ℚ) : (p.act x).dmwidth = p.dmwidth := rfl

lemma Plotter.act_dmheight (p : Plotter) (x : ℚ) : (p.act x).dmheight = p.dmheight := rfl

lemma Plotter.act_multiplier (p : Plotter) (x : ℚ) :
    (p.act x).multiplier = p.multiplier := rfl

lemma Plotter.act_points (p : Plotter) (x : ℚ) :
    (p.act x).points
      = p.points.set ((p.index + 1 % p.dmwidth) % p.dmwidth) (p.mag x) := rfl

lemma Plotter.act_points_length (p : Plotter) (x : ℚ) :
    (p.act x).points.length = p.points.length := by
  rw [Plotter.act_points]; exact List.length_set ..

/-- The slot `Plotter::act` writes holds the stored magnitude. -/
lemma Plotter.act_getD_newSlot (p : Plotter) (x : ℚ)
    (hlen : p.points.length = p.dmwidth) (hW : 0 < p.dmwidth) :
    (p.act x).points.getD ((p.index + 1 % p.dmwidth) % p.dmwidth) 0 = p.mag x := by
  rw [Plotter.act_points]
  exact getD_set_self _ _ _ (by rw [hlen]; exact Nat.mod_lt _ hW)

/-- Every other slot is untouched by `Plotter::act`. -/
lemma Plotter.act_getD_other (p : Plotter) (x : ℚ) (m : ℕ)
    (hm : (p.index + 1 % p.dmwidth) % p.dmwidth ≠ m) :
    (p.act x).points.getD m 0 = p.points.getD m 0 := by
  rw [Plotter.act_points]
  exact getD_set_ne _ _ _ _ hm

lemma foldl_act_dmwidth (s : Plotter) (xs : List ℚ) :
    (List.foldl Plotter.act s xs).dmwidth = s.dmwidth := by
  induction xs generalizing s with
  | nil => rfl
  | cons x xs ih => simpa [List.foldl_cons] using ih (s.act x)

lemma foldl_act_dmheight (s : Plotter) (xs : List ℚ) :
    (List.foldl Plotter.act s xs).dmheight = s.dmheight := by
  induction xs generalizing s with
  | nil => rfl
  | cons x xs ih => simpa [List.foldl_cons] using ih (s.act x)

lemma foldl_act_multiplier (s : Plotter) (xs : List ℚ) :
    (List.foldl Plotter.act s xs).multiplier = s.multiplier := by
  induction xs generalizing s with
  | nil => rfl
  | cons x xs ih => simpa [List.foldl_cons] using ih (s.act x)

lemma foldl_act_points_length (s : Plotter) (xs : List ℚ) :
    (List.foldl Plotter.act s xs).points.length = s.points.length := by
  induction xs generalizing s with
  | nil => rfl
  | cons x xs ih =>
    rw [List.foldl_cons, ih (s.act x), Plotter.act_points_length]

lemma foldl_act_index (s : Plotter) (xs : List ℚ) :
    (List.foldl Plotter.act s xs).index
      = s.index + xs.length * (1 % s.dmwidth) := by
  induction xs generalizing s with
  | nil => simp
  | cons x xs ih =>
    rw [List.foldl_cons, ih (s.act x), Plotter.act_index, Plotter.act_dmwidth]
    simp [List.length_cons]
    ring

lemma foldl_act_mag (s : Plotter) (xs : List ℚ) (x : ℚ) :
    (List.foldl Plotter.act s xs).mag x = s.mag x := by
  unfold Plotter.mag
  rw [foldl_act_dmheight, foldl_act_multiplier]

/-- After any run of sampling calls, the slot `(index₀ + k + 1) % dmwidth`
holds the magnitude of the `k`-th sample, for every `k` in the last
`dmwidth` samples. -/
lemma foldl_act_window (s : Plotter) (xs : List ℚ)
    (hW : 0 < s.dmwidth) (hlen : s.points.length = s.dmwidth) :
    ∀ k, xs.length - s.dmwidth ≤ k → k < xs.length →
      (List.foldl Plotter.act s xs).points.getD ((s.index + k + 1) % s.dmwidth) 0
        = s.mag (xs.getD k 0) := by
  induction xs using List.reverseRecOn with
  | nil =>
    intro k _ hk2
    exact absurd hk2 (by simp)
  | append_singleton ys x ih =>
    intro k hk1 hk2
    rw [List.foldl_append, List.foldl_cons, List.foldl_nil]
    set q := List.foldl Plotter.act s ys with hq
    have hqW : q.dmwidth = s.dmwidth := foldl_act_dmwidth s ys
    have hqlen : q.points.length = q.dmwidth := by
      rw [foldl_act_points_length s ys, hlen, hqW]
    have hqidx : q.index = s.index + ys.length * (1 % s.dmwidth) :=
      foldl_act_index s ys
    have hslot : (q.index + 1 % q.dmwidth) % q.dmwidth
        = (s.index + ys.length + 1) % s.dmwidth := by
      rw [hqidx, hqW]
      rcases Nat.lt_or_ge s.dmwidth 2 with h2 | h2
      · have hW1 : s.dmwidth = 1 := by omega
        simp [hW1, Nat.mod_one]
      · have h1 : 1 % s.dmwidth = 1 := Nat.mod_eq_of_lt h2
        rw [h1]
        ring_nf
    have hlenxs : (ys ++ [x]).length = ys.length + 1 := by simp
    rcases eq_or_ne k ys.length with hk | hk
    · rw [hk]
      have hgoal : (s.index + ys.length + 1) % s.dmwidth
          = (q.index + 1 % q.dmwidth) % q.dmwidth := hslot.symm
      rw [hgoal, Plotter.act_getD_newSlot q x hqlen (hqW ▸ hW), foldl_act_mag]
      have hx : (ys ++ [x]).getD ys.length 0 = x := by
        rw [List.getD_append_right ys [x] 0 ys.length (le_refl _)]
        simp
      rw [hx]
    · have hklt : k < ys.length := by
        rw [hlenxs] at hk2
        omega
      have hne : (q.index + 1 % q.dmwidth) % q.dmwidth
          ≠ (s.index + k + 1) % s.dmwidth := by
        rw [hslot]
        have hd1 : 0 < ys.length - k := by omega
        have hd2 : ys.length - k < s.dmwidth := by
          rw [hlenxs] at hk1
          omega
        have harith : (s.index + k + 1) + (ys.length - k) = s.index + ys.length + 1 := by
          omega
        have := mod_ne_mod_add (s.index + k + 1) (ys.length - k) s.dmwidth hd1 hd2
        rw [harith] at this
        exact this.symm
      rw [Plotter.act_getD_other q x _ hne]
      have hkk1 : ys.length - s.dmwidth ≤ k := by
        rw [hlenxs] at hk1
        omega
      rw [ih k hkk1 hklt, List.getD_append ys [x] 0 k hklt]

/-! ### Concrete states used by witnesses and counterexamples -/

/-- A small concrete plotter: `W = 2`, `H = 100`, `multiplier = 1`. -/
def pW2 : Plotter := ⟨[0, 0], 0, 2, 100, 1, 16, 100⟩

/-- Concrete plotter with cursor at `1`: `W = 2`, `H = 100`, `multiplier = 1`. -/
def pIdx : Plotter := ⟨[0, 0], 1, 2, 100, 1, 16, 100⟩

/-- Concrete plotter with `multiplier = 1000` (the spec's example scale). -/
def pScaled : Plotter := ⟨[0, 0], 0, 2, 100, 1000, 16, 100⟩

/-! ### Claims about `Plotter::act` -/

/-- Claim C1: for every sequence of `N ≥ W` sampling calls (`Plotter::act`
with width `dmwidth = W`), after the `N`-th call the buffer `points` contains
exactly the clamped magnitudes of the last `W` sampled values, each stored at
the slot determined by the wrapping cursor, in correct wrap order: for every
position `k` among the last `W` of the `N` samples, the slot
`(index₀ + k + 1) % W` holds the magnitude of sample `k` (these `W` slots are
pairwise distinct, so they exhaust the buffer). -/
theorem plotter_window_contents (s : Plotter) (xs : List ℚ)
    (hW : 0 < s.dmwidth) (hlen : s.points.length = s.dmwidth)
    (hN : s.dmwidth ≤ xs.length) (k : ℕ)
    (hk1 : xs.length - s.dmwidth ≤ k) (hk2 : k < xs.length) :
    (List.foldl Plotter.act s xs).points.getD ((s.index + k + 1) % s.dmwidth) 0
      = s.mag (xs.getD k 0) :=
  foldl_act_window s xs hW hlen k hk1 hk2

/-- Witness for C1 at `W = 2`, samples `[1, 2]`, last sample `k = 1`. -/
theorem plotter_window_contents_witness :
    0 < pW2.dmwidth ∧
    (List.foldl Plotter.act pW2 [1, 2]).points.getD
        ((pW2.index + 1 + 1) % pW2.dmwidth) 0
      = pW2.mag ([1, 2].getD 1 0) :=
  ⟨by decide,
   plotter_window_contents pW2 [1, 2] (by decide) (by decide) (by decide) 1
     (by decide) (by decide)⟩

/-- Claim C6: whenever `delta * multiplier` exceeds `dmheight`, the stored
magnitude is exactly `dmheight` (`std::min` saturates). -/
theorem plotter_clamp_saturates (p : Plotter) (x : ℚ)
    (hW : 0 < p.dmwidth) (hlen : p.points.length = p.dmwidth)
    (hover : (p.dmheight : ℚ) < x * p.multiplier) :
    (p.act x).points.getD ((p.index + 1 % p.dmwidth) % p.dmwidth) 0
      = p.dmheight := by
  rw [Plotter.act_getD_newSlot p x hlen hW]
  exact min_eq_right (le_truncToInt_of_lt _ _ hover)

/-- Witness for C6: `delta = 1/5`, `multiplier = 1000`, so the raw magnitude
`200` saturates at `dmheight = 100`. -/
theorem plotter_clamp_saturates_witness :
    (pScaled.dmheight : ℚ) < (1/5) * pScaled.multiplier ∧
    (pScaled.act (1/5)).points.getD
        ((pScaled.index + 1 % pScaled.dmwidth) % pScaled.dmwidth) 0
      = pScaled.dmheight :=
  ⟨by norm_num [pScaled],
   plotter_clamp_saturates pScaled (1/5) (by decide) (by decide)
     (by norm_num [pScaled])⟩

/-- Claim C5 (amended): the stored magnitude is computed by C++ truncation
toward zero (`static_cast<int>`), not by rounding to nearest, before the
upper clamp. -/
theorem plotter_store_trunc (p : Plotter) (x : ℚ)
    (hW : 0 < p.dmwidth) (hlen : p.points.length = p.dmwidth) :
    (p.act x).points.getD ((p.act x).index % p.dmwidth) 0
      = min (truncToInt (x * p.multiplier)) p.dmheight := by
  rw [Plotter.act_index]
  exact Plotter.act_getD_newSlot p x hlen hW

/-- Witness for C5 (amended) at `delta = 9/10`. -/
theorem plotter_store_trunc_witness :
    0 < pW2.dmwidth ∧
    (pW2.act (9/10)).points.getD ((pW2.act (9/10)).index % pW2.dmwidth) 0
      = min (truncToInt ((9/10) * pW2.multiplier)) pW2.dmheight :=
  ⟨by decide, plotter_store_trunc pW2 (9/10) (by decide) (by decide)⟩

/-- Claim C5 counterexample: with `multiplier = 1` and `delta = 9/10` the
code stores `0` (truncation), while `round(delta * multiplier)` clamped would
be `1`: the stored magnitude is not the rounded product. -/
theorem plotter_trunc_not_round_cex :
    ¬ ((pW2.act (9/10)).points.getD ((pW2.act (9/10)).index % pW2.dmwidth) 0
        = min (round ((9/10 : ℚ) * pW2.multiplier)) pW2.dmheight) := by
  have h1 : (pW2.act (9/10)).points.getD ((pW2.act (9/10)).index % pW2.dmwidth) 0
      = pW2.mag (9/10) := by
    rw [Plotter.act_index]
    exact Plotter.act_getD_newSlot pW2 (9/10) (by decide) (by decide)
  have h2 : pW2.mag (9/10) = 0 := by
    unfold Plotter.mag truncToInt
    norm_num [pW2]
  have h3 : min (round ((9/10 : ℚ) * pW2.multiplier)) pW2.dmheight = 1 := by
    norm_num [pW2, round_eq]
  rw [h1, h2, h3]
  decide

/-- Claim C4 counterexample: from cursor `1` with `W = 2`, `Plotter::act`
sets `index` to `2`, not to `(1 + 1) % 2 = 0`: the stored cursor is not
advanced modulo `W`. -/
theorem plotter_cursor_wrap_cex :
    ¬ ((pIdx.act 0).index = (pIdx.index + 1) % pIdx.dmwidth) := by decide

/-- Claim C4 (amended): `index = index + 1 % dmwidth` parses as
`index + (1 % dmwidth)`, so for `W > 1` each call increases the stored cursor
by exactly one with no wrap; only its use as an array subscript wraps, so the
effective write position still advances by one modulo `W`. -/
theorem plotter_cursor_effective_advance (p : Plotter) (x : ℚ)
    (hW : 1 < p.dmwidth) :
    (p.act x).index = p.index + 1 ∧
    (p.act x).index % p.dmwidth = (p.index + 1) % p.dmwidth := by
  have h1 : 1 % p.dmwidth = 1 := Nat.mod_eq_of_lt hW
  exact ⟨by rw [Plotter.act_index, h1], by rw [Plotter.act_index, h1]⟩

/-- Witness for C4 (amended) at cursor `1`, `W = 2`. -/
theorem plotter_cursor_effective_advance_witness :
    1 < pIdx.dmwidth ∧
    ((pIdx.act 0).index = pIdx.index + 1 ∧
     (pIdx.act 0).index % pIdx.dmwidth = (pIdx.index + 1) % pIdx.dmwidth) :=
  ⟨by decide, plotter_cursor_effective_advance pIdx 0 (by decide)⟩

/-- Claim C3 counterexample: `delta = -1` with `multiplier = 1000` stores
`-1000` at the written slot: a negative-producing input stores a negative
magnitude, so the stored magnitudes do not all lie in `[0, dmheight]`. -/
theorem plotter_negative_store_cex :
    (pScaled.act (-1)).points.getD
        ((pScaled.act (-1)).index % pScaled.dmwidth) 0 = -1000 ∧
    ¬ (0 ≤ (pScaled.act (-1)).points.getD
        ((pScaled.act (-1)).index % pScaled.dmwidth) 0) := by
  have h1 : (pScaled.act (-1)).points.getD
      ((pScaled.act (-1)).index % pScaled.dmwidth) 0 = pScaled.mag (-1) := by
    rw [Plotter.act_index]
    exact Plotter.act_getD_newSlot pScaled (-1) (by decide) (by decide)
  have h2 : pScaled.mag (-1) = -1000 := by
    unfold Plotter.mag
    have hc : ((-1 : ℚ) * pScaled.multiplier) = ((-1000 : ℤ) : ℚ) := by
      norm_num [pScaled]
    rw [hc, truncToInt_intCast]
    norm_num [pScaled]
  rw [h1, h2]
  exact ⟨rfl, by decide⟩

/-- Claim C3 (amended): the clamp has no lower bound: every stored magnitude
is at most `dmheight` (`std::min` clamps from above, so `Plotter::act`
preserves the upper bound on every slot), but a negative-producing input
stores its negative value unclamped. -/
theorem plotter_store_upper_clamp (p : Plotter) (x : ℚ) (i : ℕ)
    (hi : i < (p.act x).points.length)
    (hprev : p.points.getD i 0 ≤ p.dmheight) :
    (p.act x).points.getD i 0 ≤ p.dmheight := by
  rcases eq_or_ne ((p.index + 1 % p.dmwidth) % p.dmwidth) i with h | h
  · rw [Plotter.act_points, ← h]
    rw [getD_set_self _ _ _ (by
      rw [Plotter.act_points_length] at hi
      rw [h]
      exact hi)]
    exact min_le_right _ _
  · rw [Plotter.act_getD_other p x i h]
    exact hprev

/-- Witness for C3 (amended): the untouched slot `0` keeps its bound after a
sampling call on `pW2`. -/
theorem plotter_store_upper_clamp_witness :
    0 < (pW2.act 1).points.length ∧
    pW2.points.getD 0 0 ≤ pW2.dmheight ∧
    (pW2.act 1).points.getD 0 0 ≤ pW2.dmheight :=
  ⟨by decide, by decide,
   plotter_store_upper_clamp pW2 1 0 (by decide) (by decide)⟩

/-- Claim C10: for `dmwidth > 1`, each `Plotter::act` call increases the
stored member `index` by exactly `1` (the expression `index + 1 % dmwidth`
parses as `index + (1 % dmwidth)`) and never reduces it modulo `dmwidth`;
only the array subscript `index % dmwidth` wraps, and over repeated sampling
ticks the stored cursor grows without bound (by the length of the run). -/
theorem plotter_index_unbounded (p : Plotter) (x : ℚ) (xs : List ℚ)
    (hW : 1 < p.dmwidth) :
    (p.act x).index = p.index + 1 ∧
    (p.act x).points = p.points.set ((p.index + 1) % p.dmwidth) (p.mag x) ∧
    (List.foldl Plotter.act p xs).index = p.index + xs.length := by
  have h1 : 1 % p.dmwidth = 1 := Nat.mod_eq_of_lt hW
  refine ⟨?_, ?_, ?_⟩
  · rw [Plotter.act_index, h1]
  · rw [Plotter.act_points, h1]
  · rw [foldl_act_index, h1, mul_one]

/-- Witness for C10 on `pIdx` and a run of three ticks. -/
theorem plotter_index_unbounded_witness :
    1 < pIdx.dmwidth ∧
    ((pIdx.act 0).index = pIdx.index + 1 ∧
     (pIdx.act 0).points
       = pIdx.points.set ((pIdx.index + 1) % pIdx.dmwidth) (pIdx.mag 0) ∧
     (List.foldl Plotter.act pIdx [0, 0, 0]).index
       = pIdx.index + [0, 0, 0].length) :=
  ⟨by decide, plotter_index_unbounded pIdx 0 [0, 0, 0] (by decide)⟩

/-! ### Claim C8: rendering does not mutate the plotter -/

/-- Claim C8: `Plotter::draw` assigns no member: any number of back-to-back
render calls without an intervening `Plotter::act` leaves the state exactly
as it was and issues the identical sequence of draw calls each time. -/
theorem plotter_render_pure (p : Plotter) (pos : ℚ × ℚ) (n : ℕ) :
    (p.renderIter pos n).1 = p ∧
    (p.renderIter pos n).2 = List.replicate n (p.draw pos) := by
  induction n with
  | zero => exact ⟨rfl, rfl⟩
  | succ n ih =>
    rcases ih with ⟨ih1, ih2⟩
    unfold Plotter.renderIter
    refine ⟨by simp [Plotter.render, ih1], ?_⟩
    simp only [Plotter.render, ih1, ih2]
    rw [List.replicate_succ']

/-! ### Claim C9: the preview-export try/catch -/

/-- Claim C9: if the world-preview export throws a `std::exception` at any
step, `LevelScreen::saveWorldPreview` catches it, logs its message at error
level (after the info line), and returns an ordinary log to the caller: the
exception does not propagate, since the function's result is always a log. -/
theorem saveWorldPreview_catches (env : PreviewEnv) (e : String)
    (h : previewTryBlock env = Except.error e) :
    LevelScreen.saveWorldPreview env
      = [⟨LogLevel.info, "saving world preview"⟩, ⟨LogLevel.error, e⟩] := by
  unfold LevelScreen.saveWorldPreview
  rw [h]

/-- Concrete export run whose final write step throws. -/
def envFail : PreviewEnv :=
  ⟨Except.ok (), Except.ok (), Except.ok (), Except.error "io failure"⟩

/-- Witness for C9: the failing write is caught and logged. -/
theorem saveWorldPreview_catches_witness :
    previewTryBlock envFail = Except.error "io failure" ∧
    LevelScreen.saveWorldPreview envFail
      = [⟨LogLevel.info, "saving world preview"⟩,
         ⟨LogLevel.error, "io failure"⟩] :=
  ⟨rfl, saveWorldPreview_catches envFail "io failure" rfl⟩

/-! ### Claim C2: which slot reaches the rightmost plotted column -/

/-- The bar loop emits, as its last iteration (`i = index + dmwidth - 1`),
a vertical bar at the rightmost plotted column whose height is the magnitude
stored at slot `(index + dmwidth - 1) % dmwidth`. -/
lemma barCalls_rightmost (p : Plotter) (pos : ℚ × ℚ) (hW : 2 ≤ p.dmwidth) :
    DrawCall.line (pos.1 + ((p.index + p.dmwidth - 1 : ℕ) : ℚ) - (p.index : ℚ))
      (pos.2 + p.sizeY
        - (p.points.getD ((p.index + p.dmwidth - 1) % p.dmwidth) 0 : ℚ))
      (pos.1 + ((p.index + p.dmwidth - 1 : ℕ) : ℚ) - (p.index : ℚ))
      (pos.2 + p.sizeY) 1 1 1 (1/5) ∈ p.barCalls pos := by
  unfold Plotter.barCalls
  apply List.mem_map.mpr
  refine ⟨p.dmwidth - 2, List.mem_range.mpr (by omega), ?_⟩
  have harith : p.index + 1 + (p.dmwidth - 2) = p.index + p.dmwidth - 1 := by omega
  dsimp only
  rw [harith]

/-- Claim C2 (amended): immediately after a sampling call, the bar drawn at
the rightmost plotted column (`x = pos.x + dmwidth - 1`) shows the magnitude
stored at slot `(index + dmwidth - 1) % dmwidth`, which differs from the
cursor slot `index % dmwidth` holding the newest magnitude: the rightmost
column shows the previous sample, and the newest is not drawn. -/
theorem plotter_rightmost_prev_slot (p : Plotter) (x : ℚ) (pos : ℚ × ℚ)
    (hW : 2 ≤ p.dmwidth) :
    DrawCall.line
        (pos.1 + (((p.act x).index + (p.act x).dmwidth - 1 : ℕ) : ℚ)
          - ((p.act x).index : ℚ))
        (pos.2 + (p.act x).sizeY
          - ((p.act x).points.getD
              (((p.act x).index + (p.act x).dmwidth - 1) % (p.act x).dmwidth) 0 : ℚ))
        (pos.1 + (((p.act x).index + (p.act x).dmwidth - 1 : ℕ) : ℚ)
          - ((p.act x).index : ℚ))
        (pos.2 + (p.act x).sizeY) 1 1 1 (1/5) ∈ (p.act x).draw pos ∧
    ((p.act x).index + (p.act x).dmwidth - 1) % (p.act x).dmwidth
      ≠ (p.act x).index % (p.act x).dmwidth := by
  constructor
  · unfold Plotter.draw
    have hmem := barCalls_rightmost (p.act x) pos (by rw [Plotter.act_dmwidth]; exact hW)
    simp only [List.mem_append, List.mem_cons]
    tauto
  · set q := p.act x with hq
    have hqW : 2 ≤ q.dmwidth := by rw [hq, Plotter.act_dmwidth]; exact hW
    have h1 := mod_ne_mod_add (q.index + q.dmwidth - 1) 1 q.dmwidth one_pos
      (by omega)
    have harith : q.index + q.dmwidth - 1 + 1 = q.index + q.dmwidth := by omega
    rw [harith, Nat.add_mod_right] at h1
    exact h1

/-- Witness for C2 (amended) on a concrete post-sample state. -/
theorem plotter_rightmost_prev_slot_witness :
    2 ≤ pW2.dmwidth ∧
    (DrawCall.line
        ((0:ℚ) + (((pW2.act 50).index + (pW2.act 50).dmwidth - 1 : ℕ) : ℚ)
          - ((pW2.act 50).index : ℚ))
        ((0:ℚ) + (pW2.act 50).sizeY
          - ((pW2.act 50).points.getD
              (((pW2.act 50).index + (pW2.act 50).dmwidth - 1)
                % (pW2.act 50).dmwidth) 0 : ℚ))
        ((0:ℚ) + (((pW2.act 50).index + (pW2.act 50).dmwidth - 1 : ℕ) : ℚ)
          - ((pW2.act 50).index : ℚ))
        ((0:ℚ) + (pW2.act 50).sizeY) 1 1 1 (1/5)
      ∈ (pW2.act 50).draw (0, 0) ∧
    ((pW2.act 50).index + (pW2.act 50).dmwidth - 1) % (pW2.act 50).dmwidth
      ≠ (pW2.act 50).index % (pW2.act 50).dmwidth) :=
  ⟨by decide, plotter_rightmost_prev_slot pW2 50 (0, 0) (by decide)⟩

/-- Concrete plotter with a single label/grid row: `W = 2`, `H = 16`,
`multiplier = 1`, `labelsInterval = 16`, `size.y = 16`. -/
def pH16 : Plotter := ⟨[0, 0], 0, 2, 16, 1, 16, 16⟩

lemma pH16_act : pH16.act 10 = ⟨[0, 10], 1, 2, 16, 1, 16, 16⟩ := by
  unfold Plotter.act pH16
  norm_num [truncToInt, min_def]

lemma pH16_act_draw :
    (pH16.act 10).draw (0, 0)
      = [DrawCall.texture none, DrawCall.lineWidth 1,
         DrawCall.line 1 16 1 16 1 1 1 (1/5),
         DrawCall.setColor 1 1 1 (1/5), DrawCall.lineRect 0 0 2 16,
         DrawCall.line (-2) 16 6 16 1 1 1 (1/5),
         DrawCall.setColor 1 1 1 (1/2), DrawCall.text 10 3 4 0] := by
  rw [pH16_act]
  unfold Plotter.draw Plotter.barCalls Plotter.gridCalls Plotter.labelCalls
    Plotter.currentPoint stepCount cppDiv
  norm_num [(by decide : List.range 1 = [0]), List.flatMap_cons, List.flatMap_nil,
    (by decide : Int.tdiv 10 16 = 0), (by decide : ((16:ℤ).toNat + 15) / 16 = 1)]

/-- Claim C2 counterexample: after sampling `10` on `pH16` the newest stored
magnitude is `10` (at the cursor slot), yet no bar of height `10` is drawn at
the rightmost plotted column `x = 1`: the call that would draw the newest
magnitude there, `line 1 (16-10) 1 16` with the bar tint, is never issued. -/
theorem plotter_newest_not_rightmost_cex :
    (pH16.act 10).points.getD
        ((pH16.act 10).index % (pH16.act 10).dmwidth) 0 = 10 ∧
    DrawCall.line 1 6 1 16 1 1 1 (1/5) ∉ (pH16.act 10).draw (0, 0) := by
  constructor
  · rw [pH16_act]
    decide
  · rw [pH16_act_draw]
    norm_num [List.mem_cons]
    exact ⟨by decide, by decide, by decide, by decide, by decide, by decide⟩

/-! ### Claim C7: label highlighting -/

lemma sum_map_ite_le_one (n : ℕ) (d : ℤ) :
    ((List.range n).map (fun (k : ℕ) => if d = (k : ℤ) then 1 else 0)).sum ≤ 1 := by
  induction n with
  | zero => simp
  | succ n ih =>
    rw [List.range_succ, List.map_append, List.sum_append]
    simp only [List.map_cons, List.map_nil, List.sum_cons, List.sum_nil]
    by_cases h : d = (n : ℤ)
    · have hz : ((List.range n).map
          (fun (k : ℕ) => if d = (k : ℤ) then 1 else 0)).sum = 0 := by
        apply List.sum_eq_zero
        intro v hv
        rcases List.mem_map.mp hv with ⟨k, hk, rfl⟩
        have hkn : k < n := List.mem_range.mp hk
        rw [if_neg]
        intro he
        rw [h] at he
        have : n = k := by exact_mod_cast he
        omega
      rw [hz, if_pos h]
      omega
    · rw [if_neg h]
      simpa using ih

lemma highlightCount_append (l1 l2 : List DrawCall) :
    highlightCount (l1 ++ l2) = highlightCount l1 + highlightCount l2 :=
  List.countP_append _ _ _

lemma highlightCount_barCalls (p : Plotter) (pos : ℚ × ℚ) :
    highlightCount (p.barCalls pos) = 0 := by
  unfold highlightCount Plotter.barCalls
  rw [List.countP_eq_zero]
  intro a ha
  rcases List.mem_map.mp ha with ⟨t, _, rfl⟩
  simp

lemma highlightCount_gridCalls (p : Plotter) (pos : ℚ × ℚ) :
    highlightCount (p.gridCalls pos) = 0 := by
  unfold highlightCount Plotter.gridCalls
  rw [List.countP_eq_zero]
  intro a ha
  rcases List.mem_map.mp ha with ⟨k, _, rfl⟩
  simp

lemma highlightCount_labelCalls_le_one (p : Plotter) (pos : ℚ × ℚ)
    (hL : 0 < p.labelsInterval) :
    highlightCount (p.labelCalls pos) ≤ 1 := by
  unfold highlightCount Plotter.labelCalls
  rw [List.countP_flatMap]
  have hmap : ∀ k ∈ List.range (stepCount p.dmheight p.labelsInterval),
      ((List.countP (fun c => decide (c = DrawCall.setColor 1 1 1 (1/2)))) ∘
        (fun k =>
          let y : ℕ := p.labelsInterval * k
          if cppDiv p.currentPoint 16 = ((y / p.labelsInterval : ℕ) : ℤ) then
            [DrawCall.setColor 1 1 1 (1/2),
             DrawCall.text ((p.currentPoint : ℚ) / p.multiplier) 3
               (pos.1 + (p.dmwidth : ℚ) + 2)
               (pos.2 + (p.dmheight : ℚ) - (y : ℚ) - (p.labelsInterval : ℚ))]
          else
            [DrawCall.setColor 1 1 1 (1/5),
             DrawCall.text ((y : ℚ) / p.multiplier) 3
               (pos.1 + (p.dmwidth : ℚ) + 2)
               (pos.2 + (p.dmheight : ℚ) - (y : ℚ) - (p.labelsInterval : ℚ))])) k
        = if cppDiv p.currentPoint 16 = (k : ℤ) then 1 else 0 := by
    intro k _
    have hdiv : (p.labelsInterval * k) / p.labelsInterval = k :=
      Nat.mul_div_cancel_left k hL
    simp only [Function.comp_apply, hdiv]
    have hne5 : (DrawCall.setColor 1 1 1 (1/5) : DrawCall)
        ≠ DrawCall.setColor 1 1 1 (1/2) := by
      norm_num
    by_cases hcond : cppDiv p.currentPoint 16 = (k : ℤ)
    · rw [if_pos hcond, if_pos hcond]
      simp only [List.countP_cons, List.countP_nil, decide_eq_true_eq]
      rw [if_neg (fun h => nomatch h)]
      simp
    · rw [if_neg hcond, if_neg hcond]
      simp only [List.countP_cons, List.countP_nil, decide_eq_true_eq]
      rw [if_neg (fun h => nomatch h), if_neg hne5]
  rw [List.map_congr_left hmap]
  exact sum_map_ite_le_one _ _

/-- Claim C7 (amended): at most one label row per render call is drawn in the
highlighted style.  The selection compares the hardcoded bucket
`current_point/16` (C++ truncating division) with `y/labelsInterval`; the
row quotients are pairwise distinct, so at most one matches, and none need
match (no row is highlighted) when `labelsInterval ≠ 16` or the current
magnitude falls outside the labelled range. -/
theorem plotter_highlight_at_most_one (p : Plotter) (pos : ℚ × ℚ)
    (hL : 0 < p.labelsInterval) :
    highlightCount (p.draw pos) ≤ 1 := by
  unfold Plotter.draw
  rw [highlightCount_append, highlightCount_append, highlightCount_append,
    highlightCount_append]
  have h1 : highlightCount [DrawCall.texture none, DrawCall.lineWidth 1] = 0 := by
    decide
  have h2 : highlightCount [DrawCall.setColor 1 1 1 (1/5),
      DrawCall.lineRect pos.1 pos.2 (p.dmwidth : ℚ) (p.dmheight : ℚ)] = 0 := by
    have hne5 : (DrawCall.setColor 1 1 1 (1/5) : DrawCall)
        ≠ DrawCall.setColor 1 1 1 (1/2) := by
      norm_num
    unfold highlightCount
    simp only [List.countP_cons, List.countP_nil, decide_eq_true_eq]
    rw [if_neg (fun h => nomatch h), if_neg hne5]
  rw [h1, h2, highlightCount_barCalls, highlightCount_gridCalls]
  have h3 := highlightCount_labelCalls_le_one p pos hL
  omega

/-- Witness for C7 (amended) on the concrete state `pH16`. -/
theorem plotter_highlight_at_most_one_witness :
    0 < pH16.labelsInterval ∧ highlightCount (pH16.draw (0, 0)) ≤ 1 :=
  ⟨by decide, plotter_highlight_at_most_one pH16 (0, 0) (by decide)⟩

/-- Concrete plotter whose label interval is not 16: `W = 2`, `H = 16`,
`multiplier = 1`, `labelsInterval = 20`, current magnitude `16`. -/
def pLbl : Plotter := ⟨[16, 0], 0, 2, 16, 1, 20, 16⟩

lemma pLbl_draw :
    pLbl.draw (0, 0)
      = [DrawCall.texture none, DrawCall.lineWidth 1,
         DrawCall.line 1 16 1 16 1 1 1 (1/5),
         DrawCall.setColor 1 1 1 (1/5), DrawCall.lineRect 0 0 2 16,
         DrawCall.line (-2) 16 6 16 1 1 1 (1/5),
         DrawCall.setColor 1 1 1 (1/5), DrawCall.text 0 3 4 (-4)] := by
  unfold Plotter.draw Plotter.barCalls Plotter.gridCalls Plotter.labelCalls
    Plotter.currentPoint stepCount cppDiv pLbl
  norm_num [(by decide : List.range 1 = [0]), List.flatMap_cons, List.flatMap_nil,
    (by decide : Int.tdiv 16 16 = 1), (by decide : ((16:ℤ).toNat + 15) / 16 = 1),
    (by decide : ((16:ℤ).toNat + 19) / 20 = 1)]

/-- Claim C7 counterexample: rendering `pLbl` (label interval `20`, current
magnitude `16`) highlights no label row at all: the highlighted-style
`setColor({1,1,1,0.5f})` is never issued, so "exactly one highlighted row"
fails. -/
theorem plotter_highlight_zero_cex :
    highlightCount (pLbl.draw (0, 0)) = 0 := by
  have hne5 : (DrawCall.setColor 1 1 1 (1/5) : DrawCall)
      ≠ DrawCall.setColor 1 1 1 (1/2) := by
    norm_num
  rw [pLbl_draw]
  unfold highlightCount
  simp only [List.countP_cons, List.countP_nil, decide_eq_true_eq]
  rw [if_neg (fun h => nomatch h)]
  norm_num [hne5]
  refine ⟨⟨⟨⟨?_, ?_⟩, ?_⟩, ?_⟩, ?_⟩ <;> exact fun h => nomatch h
